import Mathlib

/-!
Verification development for the `autolysis.py` analysis pipeline.

The Python source is shallowly embedded here:
  * a pandas `DataFrame` becomes `Table` (a list of named, typed columns);
  * numeric cell contents become `ℚ` (exact arithmetic stands in for float64);
  * the standardization / k-means step works over `ℝ`, because
    `StandardScaler` divides by a square root;
  * fallible code returns `Except PipeError`;
  * external effects (file opening, the chat-completion HTTP call, mkdir,
    file writes) are passed in as explicit oracles / failure flags.
-/

set_option maxHeartbeats 1000000

namespace Autolysis

/-- Column dtypes that a pandas frame produced by `read_csv` plus
`pd.to_datetime` can carry in this program. -/
inductive Dtype where
  | object
  | float64
  | int64
  | datetime64
deriving DecidableEq

/-- A cell value: `vNaN` is the float/object missing marker, `vNaT` the
datetime missing marker produced by `pd.to_datetime(..., errors := coerce)`. -/
inductive Value where
  | vNaN : Value
  | vNaT : Value
  | vStr : String → Value
  | vNum : ℚ → Value
  | vDate : Int → Value
deriving DecidableEq

/-- `pd.isnull` on a single cell. -/
def Value.isMissing : Value → Bool
  | .vNaN => true
  | .vNaT => true
  | _ => false

structure Column where
  name : String
  dtype : Dtype
  values : List Value
deriving DecidableEq

/-- The in-memory table `self.df`. -/
structure Table where
  cols : List Column
deriving DecidableEq

def colNames (t : Table) : List String := t.cols.map Column.name

def ncols (t : Table) : Nat := t.cols.length

/-- `df.shape[0]`: number of rows (length of the first column; all columns of
a well-formed frame have equal length). -/
def nrows (t : Table) : Nat :=
  match t.cols with
  | [] => 0
  | c :: _ => c.values.length

/-- Whether a dtype is selected by `select_dtypes(include := [np.number])`. -/
def isNumericD : Dtype → Bool
  | .float64 => true
  | .int64 => true
  | _ => false

def numericColumns (t : Table) : List Column :=
  t.cols.filter (fun c => isNumericD c.dtype)

/-- Split a character list at a separator (the semantics of Python
`str.split(sep)` for a one-character separator). -/
def splitOnChar (sep : Char) : List Char → List (List Char)
  | [] => [[]]
  | c :: rest =>
    let r := splitOnChar sep rest
    if c = sep then [] :: r
    else
      match r with
      | [] => [[c]]
      | g :: gs => (c :: g) :: gs

def strSplitOn (sep : Char) (s : String) : List String :=
  (splitOnChar sep s.toList).map (fun l => String.mk l)

def digToNat? (c : Char) : Option Nat :=
  if c.isDigit then some (c.toNat - 48) else none

def natOfDigits? (l : List Char) : Option Nat :=
  if l.isEmpty then none
  else
    l.foldl
      (fun acc c =>
        match acc, digToNat? c with
        | some n, some d => some (n * 10 + d)
        | _, _ => none)
      (some 0)

def strToNat? (s : String) : Option Nat := natOfDigits? s.toList

def strToInt? (s : String) : Option Int :=
  match s.toList with
  | '-' :: rest => (natOfDigits? rest).map (fun n => -(n : Int))
  | l => (natOfDigits? l).map (fun n => (n : Int))

/-- Model of the date formats `pd.to_datetime` accepts: an ISO `Y-M-D`
string; the result is encoded as the integer `y*10000 + m*100 + d`. -/
def parseDateStr (s : String) : Option Int :=
  match (strSplitOn '-' s).map strToNat? with
  | [some y, some m, some d] =>
    if 1 ≤ m && m ≤ 12 && 1 ≤ d && d ≤ 31 then
      some ((y : Int) * 10000 + (m : Int) * 100 + (d : Int))
    else none
  | _ => none

/-- One cell of `pd.to_datetime(col, errors := coerce)`: parseable strings
and numbers convert, everything unparseable (and every missing value)
becomes `vNaT`. -/
def toDatetimeVal : Value → Value
  | .vStr s =>
    match parseDateStr s with
    | some d => .vDate d
    | none => .vNaT
  | .vNum q => .vDate ⌊q⌋
  | .vNaN => .vNaT
  | .vNaT => .vNaT
  | .vDate d => .vDate d

/-- `preprocess_data`, step 1: `if date in df.columns: df[date] =
pd.to_datetime(df[date], errors = coerce)`. -/
def dateStepCol (c : Column) : Column :=
  if c.name = "date" then
    { name := c.name, dtype := .datetime64, values := c.values.map toDatetimeVal }
  else c

def dateStep (t : Table) : Table := ⟨t.cols.map dateStepCol⟩

/-- One cell of `fillna(Unknown)`. -/
def fillVal (v : Value) : Value := if v.isMissing then .vStr "Unknown" else v

/-- `preprocess_data`, step 2: object-dtype columns get their missing
entries replaced by the sentinel string. -/
def fillCol (c : Column) : Column :=
  if c.dtype = .object then
    { name := c.name, dtype := c.dtype, values := c.values.map fillVal }
  else c

def fillStep (t : Table) : Table := ⟨t.cols.map fillCol⟩

/-- The non-missing numeric entries of a column, in order. -/
def nonMissingNums (vs : List Value) : List ℚ :=
  vs.filterMap (fun v => match v with | .vNum q => some q | _ => none)

/-- The median as `np.median` computes it: middle element of the sorted
list, or the average of the two middle elements. -/
def median (l : List ℚ) : ℚ :=
  let s := List.insertionSort (· ≤ ·) l
  let n := s.length
  if n % 2 = 1 then s.getD (n / 2) 0
  else (s.getD (n / 2 - 1) 0 + s.getD (n / 2) 0) / 2

/-- One cell of `SimpleImputer(strategy = median)`: missing numeric cells
are replaced by the column median. -/
def substNaN (med : ℚ) : Value → Value
  | .vNaN => .vNum med
  | v => v

/-- `preprocess_data`, step 3, per column: median imputation.  The imputer
returns a float array, so the column dtype becomes `float64`. -/
def imputeCol (c : Column) : Column :=
  if isNumericD c.dtype then
    { name := c.name
    , dtype := .float64
    , values := c.values.map (substNaN (median (nonMissingNums c.values))) }
  else c

def imputeStep (t : Table) : Table := ⟨t.cols.map imputeCol⟩

/-- The per-column action of the whole preprocessing pass. -/
def prepCol (c : Column) : Column := imputeCol (fillCol (dateStepCol c))

/-- Condition under which `imputer.fit_transform(df[numeric_cols])` and the
assignment back into the frame succeed: at least one numeric column must be
selected (sklearn rejects a 0-feature matrix), and every numeric column
must keep at least one non-missing entry (an all-missing column is dropped
by the imputer, making the assignment fail on shape).  A 0-row frame is
covered by the second conjunct. -/
def preprocessOk (t : Table) : Bool :=
  !(numericColumns t).isEmpty &&
    (numericColumns t).all (fun c => !(nonMissingNums c.values).isEmpty)

inductive PipeError where
  | ingestion
  | preprocessFail
  | noNumericFeatures
  | nanFeatures
  | badClusterCount
  | tooFewSamples
  | narrativeFail
  | mkdirFail
deriving DecidableEq

def isErr {ε α : Type} : Except ε α → Bool
  | .error _ => true
  | .ok _ => false

instance {ε α : Type} [DecidableEq ε] [DecidableEq α] : DecidableEq (Except ε α) := by
  intro a b
  cases a <;> cases b
  case error.error x y =>
    exact if h : x = y then isTrue (by rw [h]) else isFalse (fun hh => by cases hh; exact h rfl)
  case error.ok x y => exact isFalse (fun hh => Except.noConfusion hh)
  case ok.error x y => exact isFalse (fun hh => Except.noConfusion hh)
  case ok.ok x y =>
    exact if h : x = y then isTrue (by rw [h]) else isFalse (fun hh => by cases hh; exact h rfl)

/-- `preprocess_data`: date parsing, then categorical fill, then numeric
median imputation; the imputation step raises (a `ValueError` from sklearn
or pandas) exactly when `preprocessOk` fails. -/
def preprocess_data (t : Table) : Except PipeError Table :=
  let t2 := fillStep (dateStep t)
  if preprocessOk t2 then .ok (imputeStep t2) else .error .preprocessFail

def countMissing (vs : List Value) : Nat := (vs.filter Value.isMissing).length

/-- Which cell values a pandas column of the given dtype can physically
hold when it comes from `read_csv` (no datetime parsing yet): object
columns hold strings and NaN (and possibly inferred numbers), float
columns hold numbers and NaN, int columns hold plain integers — an int64
column cannot hold a missing marker. -/
def conformsTo (d : Dtype) (v : Value) : Bool :=
  match d, v with
  | .object, .vStr _ => true
  | .object, .vNaN => true
  | .object, .vNum _ => true
  | .float64, .vNum _ => true
  | .float64, .vNaN => true
  | .int64, .vNum _ => true
  | _, _ => false

/-- A table as produced by CSV ingestion: no datetime columns yet, and
every cell conforms to its column dtype. -/
def rawWf (t : Table) : Bool :=
  t.cols.all (fun c => c.dtype ≠ .datetime64 && c.values.all (conformsTo c.dtype))

def dtypeStr : Dtype → String
  | .object => "object"
  | .float64 => "float64"
  | .int64 => "int64"
  | .datetime64 => "datetime64[ns]"

def listMinQ : List ℚ → ℚ
  | [] => 0
  | a :: as => as.foldl min a

def listMaxQ : List ℚ → ℚ
  | [] => 0
  | a :: as => as.foldl max a

/-- Descriptive statistics of one numeric column, as in `df.describe()`.
Only the fields some claim can mention are modelled exactly; `std` and the
quartiles require irrational operations and are referenced by no claim, so
they are omitted from the record. -/
structure NumStats where
  count : Nat
  mean : ℚ
  qmin : ℚ
  qmax : ℚ
deriving DecidableEq

def describeCol (c : Column) : NumStats :=
  let nums := nonMissingNums c.values
  { count := nums.length
  , mean := if nums.length = 0 then 0 else nums.sum / (nums.length : ℚ)
  , qmin := listMinQ nums
  , qmax := listMaxQ nums }

structure Summary where
  total_rows : Nat
  total_columns : Nat
  column_types : List (String × String)
  missing_values : List (String × Nat)
  numeric_summary : List (String × NumStats)
deriving DecidableEq

/-- `get_data_summary`. -/
def get_data_summary (t : Table) : Summary :=
  { total_rows := nrows t
  , total_columns := ncols t
  , column_types := t.cols.map (fun c => (c.name, dtypeStr c.dtype))
  , missing_values := t.cols.map (fun c => (c.name, countMissing c.values))
  , numeric_summary := (numericColumns t).map (fun c => (c.name, describeCol c)) }

/-- A raw parsed CSV: header names plus data rows of field strings. -/
structure RawCSV where
  header : List String
  rows : List (List String)
deriving DecidableEq

/-- pandas pads short rows with missing values. -/
def padRow (n : Nat) (r : List String) : List String :=
  r ++ List.replicate (n - r.length) ""

/-- `detect_encoding` + `load_dataset`.  The file-system is abstracted: the
file is given as already-split lines of fields, plus an `openable` flag.
An unopenable file raises (from the `open` in `detect_encoding`); a file
with no lines at all raises pandas `EmptyDataError`, caught and re-raised
as `ValueError`; rows with more fields than the header are skipped by
`on_bad_lines = skip`, shorter rows are padded with missing values. -/
def load_dataset (openable : Bool) (lines : List (List String)) :
    Except PipeError RawCSV :=
  if !openable then .error .ingestion
  else
    match lines with
    | [] => .error .ingestion
    | header :: rest =>
      .ok { header := header
          , rows := rest.filterMap (fun r =>
              if header.length < r.length then none
              else some (padRow header.length r)) }

/-- Model of pandas numeric-literal parsing for a CSV field: an optional
sign, digits, and an optional fractional part. -/
def parseQ (s : String) : Option ℚ :=
  match strSplitOn '.' s with
  | [a] => (strToInt? a).map (fun i => (i : ℚ))
  | [a, b] =>
    match strToInt? a, natOfDigits? b.toList with
    | some i, some f =>
      let frac : ℚ := (f : ℚ) / (10 : ℚ) ^ b.toList.length
      some (if a.toList.headD ' ' = '-' then (i : ℚ) - frac else (i : ℚ) + frac)
    | _, _ => none
  | _ => none

def inferField (s : String) : Value :=
  if s = "" then .vNaN
  else
    match parseQ s with
    | some q => .vNum q
    | none => .vStr s

def colIsNumericRaw (fields : List String) : Bool :=
  fields.all (fun s => s = "" || (parseQ s).isSome)

def colIsIntRaw (fields : List String) : Bool :=
  fields.all (fun s =>
    s ≠ "" && (match parseQ s with | some q => q.den = 1 | none => false))

/-- pandas dtype inference per column: all-integer columns load as int64,
numeric columns with fractions or holes as float64, everything else as
object. -/
def inferColumn (name : String) (fields : List String) : Column :=
  if colIsNumericRaw fields then
    if colIsIntRaw fields then ⟨name, .int64, fields.map inferField⟩
    else ⟨name, .float64, fields.map inferField⟩
  else
    ⟨name, .object,
      fields.map (fun s => if s = "" then Value.vNaN else Value.vStr s)⟩

def inferTable (raw : RawCSV) : Table :=
  ⟨raw.header.enum.map (fun p =>
    inferColumn p.2 (raw.rows.map (fun r => r.getD p.1 "")))⟩

/-- The `AutomatedAnalysis.__init__` data path: load the dataset, then
preprocess it.  A load failure or a preprocessing failure propagates and is
fatal. -/
def initPipeline (openable : Bool) (lines : List (List String)) :
    Except PipeError Table :=
  (load_dataset openable lines).bind (fun raw => preprocess_data (inferTable raw))

/-- The literal fallback sentence of `generate_narrative`. -/
def fallbackNarrative : String := "An error occurred while generating the narrative."

/-- `wait_exponential(multiplier := 1, min := 4, max := 10)`: the sleep
before retry `n` is `2^(n-1)`, clamped to `[4, 10]`. -/
def waitExpBackoff (n : Nat) : Nat := min 10 (max 4 (2 ^ (n - 1)))

/-- The body of `generate_narrative`: one chat-completion call; on success
the content field is extracted and stripped, and ANY exception is caught
inside the function and converted to the fallback sentence, so the body
itself never raises. -/
def generate_narrative_body (call : Except String String) : Except String String :=
  match call with
  | .ok content => .ok content.trim
  | .error _ => .ok fallbackNarrative

/-- The tenacity `retry` loop: run the wrapped function; stop on a
non-raising call; on a raise, either re-raise (when the attempt budget is
exhausted) or sleep the backoff and try again.  Returns the result, the
number of attempts made, and the list of sleeps performed. -/
def retryGo (f : Nat → Except String String) :
    Nat → Nat → List Nat → Except String String × Nat × List Nat
  | i, 0, ws => (.error "no attempt budget", i, ws.reverse)
  | i, rem + 1, ws =>
    match f i with
    | .ok v => (.ok v, i + 1, ws.reverse)
    | .error e =>
      if rem = 0 then (.error e, i + 1, ws.reverse)
      else retryGo f (i + 1) rem (waitExpBackoff (i + 1) :: ws)

def tenacityRetry (f : Nat → Except String String) (maxAttempts : Nat) :
    Except String String × Nat × List Nat :=
  retryGo f 0 maxAttempts []

/-- `generate_narrative` under its decorator
`retry(stop := stop_after_attempt(3), wait := wait_exponential(...))`.
The external service is an oracle from attempt index to outcome. -/
def generate_narrative (oracle : Nat → Except String String) :
    Except String String × Nat × List Nat :=
  tenacityRetry (fun i => generate_narrative_body (oracle i)) 3

/-- Holds exactly when every numeric column contains only plain numbers
(no missing marker): the condition for the feature matrix handed to
`StandardScaler` / `KMeans` to be NaN-free. -/
def allNumericValues (t : Table) : Bool :=
  (numericColumns t).all (fun c =>
    c.values.all (fun v => match v with | .vNum _ => true | _ => false))

def valQ : Value → ℚ
  | .vNum q => q
  | _ => 0

noncomputable section

/-- Squared Euclidean distance between two feature vectors. -/
def sqDist (x c : List ℝ) : ℝ := ((x.zip c).map (fun p => (p.1 - p.2) ^ 2)).sum

def listMin : List ℝ → ℝ
  | [] => 0
  | a :: as => as.foldl min a

/-- `np.argmin` over the distances from point `x` to each center: the first
index attaining the minimum (ties go to the lower index). -/
def labelOf (x : List ℝ) (cs : List (List ℝ)) : Nat :=
  (cs.map (sqDist x)).findIdx (fun d => decide (d ≤ listMin (cs.map (sqDist x))))

def vecMean (ps : List (List ℝ)) (dim : Nat) : List ℝ :=
  (List.range dim).map (fun j => (ps.map (fun x => x.getD j 0)).sum / (ps.length : ℝ))

/-- One Lloyd iteration: each center is recomputed as the mean of the
points assigned to it; a center that attracts no point is kept in place (a
deterministic stand-in for sklearn's empty-cluster relocation, which also
keeps the center count at `k`). -/
def lloydIter (pts : List (List ℝ)) (cs : List (List ℝ)) : List (List ℝ) :=
  (List.range cs.length).map (fun j =>
    let assigned := pts.filter (fun x => labelOf x cs == j)
    if assigned.isEmpty then cs.getD j []
    else vecMean assigned (cs.getD j []).length)

/-- Lloyd's algorithm with an iteration budget (sklearn `max_iter = 300`)
and a convergence check (assignment-stable centers stop early). -/
def lloyd (pts : List (List ℝ)) : Nat → List (List ℝ) → List (List ℝ)
  | 0, cs => cs
  | fuel + 1, cs =>
    let next := lloydIter pts cs
    if next = cs then cs else lloyd pts fuel next

structure ClusterResult where
  centers : List (List ℝ)
  labels : List Nat
  inertia : ℝ

/-- `KMeans(n_clusters := k, random_state := 42).fit_predict` on the
standardized matrix: the seeded initialization is modelled
deterministically by the first `k` points; `labels` are the argmin
assignments against the final centers and `inertia` is the sum over points
of the minimal squared distance to a center, which is how sklearn computes
`inertia_` in its final assignment step. -/
def kmeansRun (pts : List (List ℝ)) (k : Nat) : ClusterResult :=
  { centers := lloyd pts 300 (pts.take k)
  , labels := pts.map (fun x => labelOf x (lloyd pts 300 (pts.take k)))
  , inertia :=
      (pts.map (fun x => listMin ((lloyd pts 300 (pts.take k)).map (sqDist x)))).sum }

/-- `StandardScaler().fit_transform` on one column: subtract the column
mean and divide by the population standard deviation; a zero variance is
replaced by a unit scale, as sklearn's `_handle_zeros_in_scale` does. -/
def standardizeCol (xs : List ℚ) : List ℝ :=
  let n : ℝ := (xs.length : ℝ)
  let mean : ℝ := (xs.map (fun q => (q : ℝ))).sum / n
  let variance : ℝ := ((xs.map (fun q => ((q : ℝ) - mean) ^ 2)).sum) / n
  let scale : ℝ := if variance = 0 then 1 else Real.sqrt variance
  xs.map (fun q => ((q : ℝ) - mean) / scale)

/-- The standardized feature matrix, row-major: row `i` holds the scaled
value of each numeric column at position `i`. -/
def pointsOf (t : Table) : List (List ℝ) :=
  let scaledCols := (numericColumns t).map (fun c => standardizeCol (c.values.map valQ))
  (List.range (nrows t)).map (fun i => scaledCols.map (fun col => col.getD i 0))

/-- `df[cluster] = kmeans.fit_predict(...)`: overwrite the column when it
exists, append it otherwise. -/
def setCluster (t : Table) (labels : List Nat) : Table :=
  let c : Column := ⟨"cluster", .int64, labels.map (fun l => .vNum (l : ℚ))⟩
  if (colNames t).contains "cluster" then
    ⟨t.cols.map (fun c0 => if c0.name = "cluster" then c else c0)⟩
  else ⟨t.cols ++ [c]⟩

/-- `perform_clustering`.  The guards reproduce, in evaluation order, the
`ValueError`s sklearn raises before any fitting happens: a 0-feature
matrix from `select_dtypes`, a NaN-carrying matrix, `n_clusters < 1`, and
`n_samples < n_clusters`. -/
def perform_clustering (t : Table) (k : Nat := 3) :
    Except PipeError (ClusterResult × Table) :=
  if numericColumns t = [] then .error .noNumericFeatures
  else if !allNumericValues t then .error .nanFeatures
  else if k = 0 then .error .badClusterCount
  else if nrows t < k then .error .tooFewSamples
  else
    let res := kmeansRun (pointsOf t) k
    .ok (res, setCluster t res.labels)

/-- `folder_name = self.dataset_path.split(".")[0]`: everything before the
first dot of the whole path. -/
def folderName (p : String) : String := ((strSplitOn '.' p).headD "")

def joinWithDot : List String → String
  | [] => ""
  | [s] => s
  | s :: rest => s ++ "." ++ joinWithDot rest

/-- Modelled from the spec: "a directory named after the input file's base
name (extension stripped)" — the path component after the last slash, with
the part after its last dot removed.  Used only to compare the spec's words
against `folderName`. -/
def baseNameStripExt (p : String) : String :=
  let base := (strSplitOn '/' p).getLastD p
  match strSplitOn '.' base with
  | [] => base
  | [s] => s
  | parts => joinWithDot parts.dropLast

/-- The fixed-structure Markdown document `save_results` writes, modelled
as a record of its section contents in source order (string rendering of
the real-valued clustering numbers is not modelled; no claim mentions the
rendered characters). -/
structure ReportDoc where
  title : String
  datasetPath : String
  total_rows : Nat
  total_columns : Nat
  column_types : List (String × String)
  missing_values : List (String × Nat)
  numeric_summary : List (String × NumStats)
  cluster_centers : List (List ℝ)
  inertia : ℝ
  clusterImage : String
  heatmapImage : String
  narrative : String

def reportDoc (path : String) (s : Summary) (c : ClusterResult)
    (narrative : String) : ReportDoc :=
  { title := "Automated Dataset Analysis"
  , datasetPath := path
  , total_rows := s.total_rows
  , total_columns := s.total_columns
  , column_types := s.column_types
  , missing_values := s.missing_values
  , numeric_summary := s.numeric_summary
  , cluster_centers := c.centers
  , inertia := c.inertia
  , clusterImage := "cluster_distribution.png"
  , heatmapImage := "correlation_heatmap.png"
  , narrative := narrative }

/-- Observable file-system effects of `save_results`. -/
structure SaveOutcome where
  mkdirDone : List String
  written : List (String × ReportDoc)
  loggedError : Bool

/-- `save_results`.  `os.makedirs` runs BEFORE the `try` block, so a mkdir
failure propagates; a failure while opening/writing `README.md` is caught
by the `except` and only logged (the partially written file is modelled as
no recorded document). -/
def save_results (path : String) (summary : Summary) (analysis : ClusterResult)
    (narrative : String) (mkdirFails writeFails : Bool) :
    Except PipeError SaveOutcome :=
  let folder := folderName path
  if mkdirFails then .error .mkdirFail
  else if writeFails then .ok ⟨[folder], [], true⟩
  else .ok ⟨[folder], [(folder ++ "/README.md", reportDoc path summary analysis narrative)], false⟩

structure RunResult where
  summary : Summary
  clusterRes : ClusterResult
  narrative : String
  saved : SaveOutcome
  finalTable : Table

/-- `run_analysis`: summary, then clustering (with the default `k = 3`),
then narrative, then report.  The second component counts the narrative
attempts actually made, so that "no network call happened" is observable:
it is `0` whenever clustering raised first. -/
def run_analysis (t : Table) (path : String) (oracle : Nat → Except String String)
    (mkdirFails writeFails : Bool) : Except PipeError RunResult × Nat :=
  let summary := get_data_summary t
  match perform_clustering t 3 with
  | .error e => (.error e, 0)
  | .ok (cres, tNew) =>
    match generate_narrative oracle with
    | (.ok narrative, attempts, _) =>
      match save_results path summary cres narrative mkdirFails writeFails with
      | .error e => (.error e, attempts)
      | .ok out => (.ok ⟨summary, cres, narrative, out, tNew⟩, attempts)
    | (.error _, attempts, _) => (.error .narrativeFail, attempts)

end

/-! ### Concrete tables and inputs used by witnesses and counterexamples -/

/-- A raw table whose single numeric column has one hole; its non-missing
entries are `1, 2, 3` with median `2`. -/
def c7Raw : Table := ⟨[⟨"x", .float64, [.vNum 1, .vNaN, .vNum 2, .vNum 3]⟩]⟩

/-- The clean image of `c7Raw` (the hole filled with the median 2). -/
def c7Clean : Table := ⟨[⟨"x", .float64, [.vNum 1, .vNum 2, .vNum 2, .vNum 3]⟩]⟩

/-- A table with a date column holding an unparseable entry, plus one
numeric column. -/
def c2Table : Table := ⟨[⟨"date", .object, [.vStr "not-a-date"]⟩, ⟨"x", .float64, [.vNum 1]⟩]⟩

/-- A table whose only column is categorical: zero numeric columns. -/
def c3Table : Table := ⟨[⟨"kind", .object, [.vStr "a", .vStr "b", .vStr "c"]⟩]⟩

/-- A clean table with one numeric column and three rows. -/
def c6Table : Table := ⟨[⟨"x", .float64, [.vNum 0, .vNum 1, .vNum 2]⟩]⟩

/-- A clean table with a single row. -/
def c6OneRow : Table := ⟨[⟨"x", .float64, [.vNum 1]⟩]⟩

/-- A throwaway summary value for reporter-level statements. -/
def exSummary : Summary := ⟨0, 0, [], [], []⟩

/-- A throwaway clustering result for reporter-level statements. -/
def exCluster : ClusterResult := ⟨[], [], 0⟩

/-! ### Support lemmas: preprocessing -/

lemma dateStepCol_name (c : Column) : (dateStepCol c).name = c.name := by
  unfold dateStepCol; split <;> rfl

lemma fillCol_name (c : Column) : (fillCol c).name = c.name := by
  unfold fillCol; split <;> rfl

lemma imputeCol_name (c : Column) : (imputeCol c).name = c.name := by
  unfold imputeCol; split <;> rfl

lemma prepCol_name (c : Column) : (prepCol c).name = c.name := by
  unfold prepCol; rw [imputeCol_name, fillCol_name, dateStepCol_name]

lemma dateStepCol_values_length (c : Column) :
    (dateStepCol c).values.length = c.values.length := by
  unfold dateStepCol; split <;> simp

lemma fillCol_values_length (c : Column) :
    (fillCol c).values.length = c.values.length := by
  unfold fillCol; split <;> simp

lemma imputeCol_values_length (c : Column) :
    (imputeCol c).values.length = c.values.length := by
  unfold imputeCol; split <;> simp

lemma prepCol_values_length (c : Column) :
    (prepCol c).values.length = c.values.length := by
  unfold prepCol
  rw [imputeCol_values_length, fillCol_values_length, dateStepCol_values_length]

lemma preprocess_eq (t : Table) :
    preprocess_data t =
      if preprocessOk (fillStep (dateStep t)) then .ok ⟨t.cols.map prepCol⟩
      else .error .preprocessFail := by
  unfold preprocess_data imputeStep fillStep dateStep
  simp only [List.map_map]
  rfl

lemma toDatetimeVal_idem (v : Value) :
    toDatetimeVal (toDatetimeVal v) = toDatetimeVal v := by
  cases v <;> try rfl
  rename_i s
  cases h : parseDateStr s <;> simp [toDatetimeVal, h]

lemma toDatetimeVal_shape (v : Value) :
    (∃ d, toDatetimeVal v = .vDate d) ∨ toDatetimeVal v = .vNaT := by
  cases v
  · exact .inr rfl
  · exact .inr rfl
  · rename_i s
    cases h : parseDateStr s with
    | none => exact .inr (by simp [toDatetimeVal, h])
    | some d => exact .inl ⟨d, by simp [toDatetimeVal, h]⟩
  · exact .inl ⟨_, rfl⟩
  · exact .inl ⟨_, rfl⟩

lemma fillVal_not_missing (v : Value) : (fillVal v).isMissing = false := by
  cases v <;> rfl

lemma fillVal_idem (v : Value) : fillVal (fillVal v) = fillVal v := by
  cases v <;> rfl

lemma substNaN_ne_vNaN (m : ℚ) (v : Value) : substNaN m v ≠ .vNaN := by
  cases v <;> simp [substNaN]

lemma substNaN_of_ne_vNaN (m : ℚ) (v : Value) (h : v ≠ .vNaN) : substNaN m v = v := by
  cases v <;> simp_all [substNaN]

lemma substNaN_not_missing (m : ℚ) (v : Value)
    (h : conformsTo .float64 v = true ∨ conformsTo .int64 v = true) :
    (substNaN m v).isMissing = false := by
  cases v <;> simp_all [substNaN, conformsTo, Value.isMissing]

lemma dateStepCol_of_ne (c : Column) (h : c.name ≠ "date") : dateStepCol c = c := by
  unfold dateStepCol; rw [if_neg h]

lemma dateStepCol_of_date (c : Column) (h : c.name = "date") :
    dateStepCol c =
      { name := c.name, dtype := .datetime64, values := c.values.map toDatetimeVal } := by
  unfold dateStepCol; rw [if_pos h]

lemma fillCol_of_ne (c : Column) (h : c.dtype ≠ .object) : fillCol c = c := by
  unfold fillCol; rw [if_neg h]

lemma fillCol_of_object (c : Column) (h : c.dtype = .object) :
    fillCol c = { name := c.name, dtype := .object, values := c.values.map fillVal } := by
  unfold fillCol; rw [if_pos h, h]

lemma imputeCol_of_ne (c : Column) (h : ¬ isNumericD c.dtype = true) : imputeCol c = c := by
  unfold imputeCol; rw [if_neg h]

lemma imputeCol_of_num (c : Column) (h : isNumericD c.dtype = true) :
    imputeCol c =
      { name := c.name
      , dtype := .float64
      , values := c.values.map (substNaN (median (nonMissingNums c.values))) } := by
  unfold imputeCol; rw [if_pos h]

lemma prepCol_date (c : Column) (h : c.name = "date") :
    prepCol c =
      { name := c.name, dtype := .datetime64, values := c.values.map toDatetimeVal } := by
  unfold prepCol
  rw [dateStepCol_of_date c h, fillCol_of_ne _ (by simp), imputeCol_of_ne _ (by simp [isNumericD])]

lemma prepCol_object (c : Column) (hn : c.name ≠ "date") (h : c.dtype = .object) :
    prepCol c = { name := c.name, dtype := .object, values := c.values.map fillVal } := by
  unfold prepCol
  rw [dateStepCol_of_ne c hn, fillCol_of_object c h, imputeCol_of_ne _ (by simp [isNumericD])]

lemma prepCol_numeric (c : Column) (hn : c.name ≠ "date") (h : isNumericD c.dtype = true) :
    prepCol c =
      { name := c.name
      , dtype := .float64
      , values := c.values.map (substNaN (median (nonMissingNums c.values))) } := by
  unfold prepCol
  rw [dateStepCol_of_ne c hn,
      fillCol_of_ne c (by intro hobj; rw [hobj] at h; simp [isNumericD] at h),
      imputeCol_of_num c h]

lemma prepCol_datetime (c : Column) (hn : c.name ≠ "date") (h : c.dtype = .datetime64) :
    prepCol c = c := by
  unfold prepCol
  rw [dateStepCol_of_ne c hn, fillCol_of_ne c (by rw [h]; simp),
      imputeCol_of_ne c (by rw [h]; simp [isNumericD])]

lemma dateStepCol_prepCol (c : Column) : dateStepCol (prepCol c) = prepCol c := by
  by_cases h : c.name = "date"
  · rw [prepCol_date c h]
    have hmm : toDatetimeVal ∘ toDatetimeVal = toDatetimeVal := funext toDatetimeVal_idem
    simp [dateStepCol, h, List.map_map, hmm]
  · exact dateStepCol_of_ne _ (by rw [prepCol_name]; exact h)

lemma fillCol_prepCol (c : Column) : fillCol (prepCol c) = prepCol c := by
  by_cases h : c.name = "date"
  · rw [prepCol_date c h]; exact fillCol_of_ne _ (by simp)
  · cases hd : c.dtype
    · rw [prepCol_object c h hd, fillCol_of_object _ rfl]
      have hmm : fillVal ∘ fillVal = fillVal := funext fillVal_idem
      simp [List.map_map, hmm]
    · rw [prepCol_numeric c h (by rw [hd]; rfl)]; exact fillCol_of_ne _ (by simp)
    · rw [prepCol_numeric c h (by rw [hd]; rfl)]; exact fillCol_of_ne _ (by simp)
    · rw [prepCol_datetime c h hd]; exact fillCol_of_ne _ (by rw [hd]; simp)

lemma imputeCol_prepCol (c : Column) : imputeCol (prepCol c) = prepCol c := by
  by_cases h : c.name = "date"
  · rw [prepCol_date c h]; exact imputeCol_of_ne _ (by simp [isNumericD])
  · cases hd : c.dtype
    · rw [prepCol_object c h hd]; exact imputeCol_of_ne _ (by simp [isNumericD])
    · rw [prepCol_numeric c h (by rw [hd]; rfl), imputeCol_of_num _ (by rfl)]
      have hmm : ∀ m2 m v, substNaN m2 (substNaN m v) = substNaN m v := fun m2 m v =>
        substNaN_of_ne_vNaN m2 _ (substNaN_ne_vNaN m v)
      simp [List.map_map, Function.comp, hmm]
    · rw [prepCol_numeric c h (by rw [hd]; rfl), imputeCol_of_num _ (by rfl)]
      have hmm : ∀ m2 m v, substNaN m2 (substNaN m v) = substNaN m v := fun m2 m v =>
        substNaN_of_ne_vNaN m2 _ (substNaN_ne_vNaN m v)
      simp [List.map_map, Function.comp, hmm]
    · rw [prepCol_datetime c h hd]; exact imputeCol_of_ne _ (by rw [hd]; simp [isNumericD])

lemma prepCol_idem (c : Column) : prepCol (prepCol c) = prepCol c := by
  show imputeCol (fillCol (dateStepCol (prepCol c))) = prepCol c
  rw [dateStepCol_prepCol, fillCol_prepCol, imputeCol_prepCol]

lemma dateStep_prep (t : Table) : dateStep ⟨t.cols.map prepCol⟩ = ⟨t.cols.map prepCol⟩ := by
  unfold dateStep
  congr 1
  rw [List.map_map]
  apply List.map_congr_left
  intro c _
  simp [Function.comp, dateStepCol_prepCol]

lemma fillStep_prep (t : Table) : fillStep ⟨t.cols.map prepCol⟩ = ⟨t.cols.map prepCol⟩ := by
  unfold fillStep
  congr 1
  rw [List.map_map]
  apply List.map_congr_left
  intro c _
  simp [Function.comp, fillCol_prepCol]

lemma imputeStep_prep (t : Table) : imputeStep ⟨t.cols.map prepCol⟩ = ⟨t.cols.map prepCol⟩ := by
  unfold imputeStep
  congr 1
  rw [List.map_map]
  apply List.map_congr_left
  intro c _
  simp [Function.comp, imputeCol_prepCol]

lemma isNumericD_imputeCol (c : Column) :
    isNumericD (imputeCol c).dtype = isNumericD c.dtype := by
  unfold imputeCol
  split
  · rename_i h; rw [h]; rfl
  · rfl

lemma numericColumns_imputeStep (t : Table) :
    numericColumns (imputeStep t) = (numericColumns t).map imputeCol := by
  unfold numericColumns imputeStep
  rw [List.filter_map]
  congr 1
  apply List.filter_congr
  intro c _
  simp [Function.comp, isNumericD_imputeCol]

lemma nonMissingNums_substNaN (m : ℚ) (vs : List Value)
    (h : (nonMissingNums vs).isEmpty = false) :
    (nonMissingNums (vs.map (substNaN m))).isEmpty = false := by
  unfold nonMissingNums at h ⊢
  rw [List.filterMap_map]
  rw [List.isEmpty_eq_false] at h ⊢
  intro hnil
  apply h
  rw [List.filterMap_eq_nil_iff] at hnil ⊢
  intro v hv
  have := hnil v hv
  cases v <;> simp_all [substNaN, Function.comp]

lemma preprocessOk_imputeStep (t : Table) (h : preprocessOk t = true) :
    preprocessOk (imputeStep t) = true := by
  unfold preprocessOk at h ⊢
  rw [numericColumns_imputeStep]
  rw [Bool.and_eq_true] at h ⊢
  obtain ⟨h1, h2⟩ := h
  constructor
  · cases hx : numericColumns t with
    | nil => rw [hx] at h1; simp at h1
    | cons a as => simp [hx]
  · rw [List.all_map]
    rw [List.all_eq_true] at h2 ⊢
    intro c hc
    have hcn : isNumericD c.dtype = true := (List.mem_filter.mp hc).2
    have hcv : (nonMissingNums c.values).isEmpty = false := by
      have h2c := h2 c hc
      cases hx : (nonMissingNums c.values).isEmpty
      · rfl
      · rw [hx] at h2c; simp at h2c
    have h3 := nonMissingNums_substNaN (median (nonMissingNums c.values)) c.values hcv
    simp only [Function.comp]
    rw [imputeCol_of_num c hcn]
    simp [h3]

lemma imputeStep_fillStep_dateStep (t : Table) :
    imputeStep (fillStep (dateStep t)) = ⟨t.cols.map prepCol⟩ := by
  unfold imputeStep fillStep dateStep
  simp only [List.map_map]
  rfl

lemma preprocess_ok_shape (t t' : Table) (h : preprocess_data t = .ok t') :
    t' = ⟨t.cols.map prepCol⟩ ∧ preprocessOk (fillStep (dateStep t)) = true := by
  rw [preprocess_eq] at h
  by_cases hg : preprocessOk (fillStep (dateStep t)) = true
  · rw [if_pos hg] at h
    injection h with h2
    exact ⟨h2.symm, hg⟩
  · rw [if_neg hg] at h
    exact Except.noConfusion h

lemma countMissing_map_eq_zero (vs : List Value) (f : Value → Value)
    (hf : ∀ v ∈ vs, (f v).isMissing = false) :
    countMissing (vs.map f) = 0 := by
  unfold countMissing
  have : List.filter Value.isMissing (vs.map f) = [] := by
    rw [List.filter_eq_nil_iff]
    intro v hv
    obtain ⟨w, hw, rfl⟩ := List.mem_map.mp hv
    simp [hf w hw]
  rw [this]
  rfl

lemma countMissing_prepCol (c : Column)
    (hdt : c.dtype ≠ .datetime64) (hcf : ∀ v ∈ c.values, conformsTo c.dtype v = true)
    (hn : c.name ≠ "date") : countMissing (prepCol c).values = 0 := by
  cases hd : c.dtype
  · rw [prepCol_object c hn hd]
    exact countMissing_map_eq_zero _ _ (fun v _ => fillVal_not_missing v)
  · rw [prepCol_numeric c hn (by rw [hd]; rfl)]
    apply countMissing_map_eq_zero
    intro v hv
    apply substNaN_not_missing
    left
    have := hcf v hv
    rwa [hd] at this
  · rw [prepCol_numeric c hn (by rw [hd]; rfl)]
    apply countMissing_map_eq_zero
    intro v hv
    apply substNaN_not_missing
    right
    have := hcf v hv
    rwa [hd] at this
  · exact absurd hd hdt

lemma prepCol_date_shape (c : Column) (h : c.name = "date") :
    (prepCol c).dtype = .datetime64 ∧
      ∀ v ∈ (prepCol c).values, (∃ d, v = .vDate d) ∨ v = .vNaT := by
  rw [prepCol_date c h]
  refine ⟨rfl, ?_⟩
  intro v hv
  obtain ⟨w, _, rfl⟩ := List.mem_map.mp hv
  exact toDatetimeVal_shape w

lemma rawWf_col (t : Table) (hwf : rawWf t = true) (c : Column) (hc : c ∈ t.cols) :
    c.dtype ≠ .datetime64 ∧ ∀ v ∈ c.values, conformsTo c.dtype v = true := by
  unfold rawWf at hwf
  rw [List.all_eq_true] at hwf
  have := hwf c hc
  rw [Bool.and_eq_true] at this
  obtain ⟨h1, h2⟩ := this
  constructor
  · simpa using h1
  · rw [List.all_eq_true] at h2
    exact h2

/-! ### Claim theorems: preprocessing -/

/-- C7: the Preprocessor is idempotent — if `preprocess_data` produced the
clean table `t'`, then running `preprocess_data` on `t'` succeeds and
returns `t'` unchanged. -/
theorem preprocess_data_idempotent (t t' : Table)
    (h : preprocess_data t = .ok t') : preprocess_data t' = .ok t' := by
  obtain ⟨ht', hg⟩ := preprocess_ok_shape t t' h
  subst ht'
  rw [preprocess_eq, dateStep_prep, fillStep_prep]
  have hok : preprocessOk (⟨t.cols.map prepCol⟩ : Table) = true := by
    rw [← imputeStep_fillStep_dateStep]
    exact preprocessOk_imputeStep _ hg
  rw [if_pos hok]
  congr 1
  simp only [List.map_map]
  congr 1
  apply List.map_congr_left
  intro c _
  simp [Function.comp, prepCol_idem]

/-- Witness for C7: `c7Raw` preprocesses to `c7Clean` (hole imputed with
the median 2), and preprocessing `c7Clean` again is a no-op. -/
theorem preprocess_data_idempotent_witness :
    preprocess_data c7Raw = .ok c7Clean ∧ preprocess_data c7Clean = .ok c7Clean :=
  ⟨by decide, preprocess_data_idempotent c7Raw c7Clean (by decide)⟩

/-- C2 counterexample: on a table whose `date` column holds an unparseable
entry, preprocessing succeeds but the summary's missing-value count for
`date` is 1, not 0 — the coerced `NaT` is left in place by both the
categorical fill (the column is no longer object-typed) and the numeric
imputer (it is not numeric either). -/
theorem c2_counterexample :
    (preprocess_data c2Table).map (fun t => (get_data_summary t).missing_values)
      = .ok [("date", 1), ("x", 0)] := by rfl

/-- C2 (amended): after preprocessing a well-formed raw table, every
column other than `date` reports zero missing values; the `date` column is
datetime-typed and each of its entries is either a parsed date or the
explicit missing marker `NaT` (so its missing count equals its number of
unparseable or missing entries, which need not be zero). -/
theorem preprocess_missing_values_amended (t t' : Table)
    (hwf : rawWf t = true) (h : preprocess_data t = .ok t') :
    (∀ pr ∈ (get_data_summary t').missing_values, pr.1 ≠ "date" → pr.2 = 0) ∧
    (∀ c ∈ t'.cols, c.name = "date" →
      c.dtype = .datetime64 ∧ ∀ v ∈ c.values, (∃ d, v = .vDate d) ∨ v = .vNaT) := by
  obtain ⟨ht', _⟩ := preprocess_ok_shape t t' h
  subst ht'
  constructor
  · intro pr hpr hname
    unfold get_data_summary at hpr
    simp only at hpr
    obtain ⟨c, hc, rfl⟩ := List.mem_map.mp hpr
    obtain ⟨c0, hc0, rfl⟩ := List.mem_map.mp hc
    obtain ⟨hdt, hcf⟩ := rawWf_col t hwf c0 hc0
    have hn : c0.name ≠ "date" := by rwa [prepCol_name] at hname
    exact countMissing_prepCol c0 hdt hcf hn
  · intro c hc hname
    obtain ⟨c0, hc0, rfl⟩ := List.mem_map.mp hc
    have hn : c0.name = "date" := by rwa [prepCol_name] at hname
    exact prepCol_date_shape c0 hn

/-- Witness for C2 (amended): a well-formed raw table with a date column,
a categorical hole, and a numeric hole; after preprocessing, every
non-date column reports zero missing values. -/
theorem preprocess_missing_values_amended_witness :
    rawWf c2Table = true ∧ preprocess_data c2Table = .ok
      ⟨[⟨"date", .datetime64, [.vNaT]⟩, ⟨"x", .float64, [.vNum 1]⟩]⟩ ∧
    (∀ pr ∈ (get_data_summary
        (⟨[⟨"date", .datetime64, [.vNaT]⟩, ⟨"x", .float64, [.vNum 1]⟩]⟩ : Table)).missing_values,
      pr.1 ≠ "date" → pr.2 = 0) :=
  ⟨by rfl, by decide,
    (preprocess_missing_values_amended c2Table _ (by rfl) (by decide)).1⟩

/-! ### Support lemmas: clustering -/

lemma sqDist_nonneg (x c : List ℝ) : 0 ≤ sqDist x c := by
  unfold sqDist
  apply List.sum_nonneg
  intro y hy
  obtain ⟨p, _, rfl⟩ := List.mem_map.mp hy
  exact sq_nonneg _

lemma foldl_min_le (as : List ℝ) : ∀ (a x : ℝ), x ∈ a :: as → as.foldl min a ≤ x := by
  induction as with
  | nil =>
    intro a x hx
    rw [List.mem_singleton] at hx
    subst hx
    exact le_refl _
  | cons b bs ih =>
    intro a x hx
    rw [List.foldl_cons]
    rcases List.mem_cons.mp hx with h1 | hx2
    · rw [h1]
      exact le_trans (ih (min a b) _ (List.mem_cons_self _ _)) (min_le_left a b)
    · rcases List.mem_cons.mp hx2 with h2 | h3
      · rw [h2]
        exact le_trans (ih (min a b) _ (List.mem_cons_self _ _)) (min_le_right a b)
      · exact ih (min a b) x (List.mem_cons_of_mem _ h3)

lemma listMin_le (l : List ℝ) (x : ℝ) (hx : x ∈ l) : listMin l ≤ x := by
  cases l with
  | nil => cases hx
  | cons a as => exact foldl_min_le as a x hx

lemma foldl_min_mem (as : List ℝ) : ∀ (a : ℝ), as.foldl min a ∈ a :: as := by
  induction as with
  | nil =>
    intro a
    exact List.mem_singleton.mpr rfl
  | cons b bs ih =>
    intro a
    rw [List.foldl_cons]
    rcases List.mem_cons.mp (ih (min a b)) with h1 | h2
    · rcases min_choice a b with hm | hm
      · rw [h1, hm]; exact List.mem_cons_self _ _
      · rw [h1, hm]; exact List.mem_cons_of_mem _ (List.mem_cons_self _ _)
    · exact List.mem_cons_of_mem _ (List.mem_cons_of_mem _ h2)

lemma listMin_mem (l : List ℝ) (h : l ≠ []) : listMin l ∈ l := by
  cases l with
  | nil => exact absurd rfl h
  | cons a as => exact foldl_min_mem as a

lemma listMin_dists_nonneg (x : List ℝ) (cs : List (List ℝ)) (h : cs ≠ []) :
    0 ≤ listMin (cs.map (sqDist x)) := by
  have hne : cs.map (sqDist x) ≠ [] := by simpa using h
  obtain ⟨c, _, hc⟩ := List.mem_map.mp (listMin_mem _ hne)
  rw [← hc]
  exact sqDist_nonneg x c

lemma labelOf_lt (x : List ℝ) (cs : List (List ℝ)) (h : cs ≠ []) :
    labelOf x cs < cs.length := by
  unfold labelOf
  have hne : cs.map (sqDist x) ≠ [] := by simpa using h
  have hex : ∃ d ∈ cs.map (sqDist x),
      (fun d => decide (d ≤ listMin (cs.map (sqDist x)))) d = true :=
    ⟨_, listMin_mem _ hne, by simp⟩
  have := List.findIdx_lt_length_of_exists hex
  simpa using this

lemma labelOf_getD (x : List ℝ) (cs : List (List ℝ)) (h : cs ≠ []) :
    sqDist x (cs.getD (labelOf x cs) []) = listMin (cs.map (sqDist x)) := by
  have hlt := labelOf_lt x cs h
  have hlt2 : labelOf x cs < (cs.map (sqDist x)).length := by simpa using hlt
  have hpt := @List.findIdx_get ℝ
    (fun d => decide (d ≤ listMin (cs.map (sqDist x)))) (cs.map (sqDist x)) hlt2
  have hle : (cs.map (sqDist x)).get ⟨labelOf x cs, hlt2⟩
      ≤ listMin (cs.map (sqDist x)) := of_decide_eq_true hpt
  have hge : listMin (cs.map (sqDist x))
      ≤ (cs.map (sqDist x)).get ⟨labelOf x cs, hlt2⟩ :=
    listMin_le _ _ (List.get_mem _ _ _)
  have heq := le_antisymm hle hge
  have hmap : (cs.map (sqDist x)).get ⟨labelOf x cs, hlt2⟩
      = sqDist x (cs.get ⟨labelOf x cs, hlt⟩) := by
    rw [List.get_map]
  have hgetD : cs.getD (labelOf x cs) [] = cs.get ⟨labelOf x cs, hlt⟩ := by
    simp [List.getD_eq_getElem?_getD, List.getElem?_eq_getElem hlt]
  rw [hgetD, ← hmap, heq]

lemma lloydIter_length (pts cs : List (List ℝ)) :
    (lloydIter pts cs).length = cs.length := by
  unfold lloydIter
  simp

lemma lloyd_length (pts : List (List ℝ)) (fuel : Nat) (cs : List (List ℝ)) :
    (lloyd pts fuel cs).length = cs.length := by
  induction fuel generalizing cs with
  | zero => rfl
  | succ n ih =>
    unfold lloyd
    by_cases h : lloydIter pts cs = cs
    · rw [if_pos h]
    · rw [if_neg h, ih (lloydIter pts cs), lloydIter_length]

lemma kmeansRun_centers_length (pts : List (List ℝ)) (k : Nat)
    (hk : k ≤ pts.length) : (kmeansRun pts k).centers.length = k := by
  unfold kmeansRun
  rw [lloyd_length, List.length_take]
  exact Nat.min_eq_left hk

lemma kmeansRun_centers_ne_nil (pts : List (List ℝ)) (k : Nat)
    (hk1 : 1 ≤ k) (hk : k ≤ pts.length) : (kmeansRun pts k).centers ≠ [] := by
  have := kmeansRun_centers_length pts k hk
  intro hnil
  rw [hnil] at this
  simp at this
  omega

lemma lloyd_take_ne_nil (pts : List (List ℝ)) (k : Nat)
    (hk1 : 1 ≤ k) (hk : k ≤ pts.length) : lloyd pts 300 (pts.take k) ≠ [] := by
  intro hnil
  have hlen := lloyd_length pts 300 (pts.take k)
  rw [hnil, List.length_take, Nat.min_eq_left hk] at hlen
  simp at hlen
  omega

lemma pointsOf_length (t : Table) : (pointsOf t).length = nrows t := by
  unfold pointsOf
  simp

lemma perform_clustering_ok (t : Table) (k : Nat)
    (h1 : numericColumns t ≠ []) (h2 : allNumericValues t = true)
    (h3 : k ≠ 0) (h4 : ¬ nrows t < k) :
    perform_clustering t k =
      .ok (kmeansRun (pointsOf t) k,
           setCluster t (kmeansRun (pointsOf t) k).labels) := by
  unfold perform_clustering
  rw [if_neg h1, if_neg (by simp [h2]), if_neg h3, if_neg h4]

lemma kmeansRun_labels_length (pts : List (List ℝ)) (k : Nat) :
    (kmeansRun pts k).labels.length = pts.length := by
  show (pts.map _).length = pts.length
  rw [List.length_map]

lemma kmeansRun_labels_lt (pts : List (List ℝ)) (k : Nat)
    (hk1 : 1 ≤ k) (hk : k ≤ pts.length) :
    ∀ l ∈ (kmeansRun pts k).labels, l < k := by
  intro l hl
  have hl2 : l ∈ pts.map (fun x => labelOf x (lloyd pts 300 (pts.take k))) := hl
  obtain ⟨x, _, rfl⟩ := List.mem_map.mp hl2
  have hne := lloyd_take_ne_nil pts k hk1 hk
  have hlen : (lloyd pts 300 (pts.take k)).length = k := by
    rw [lloyd_length, List.length_take]
    exact Nat.min_eq_left hk
  have := labelOf_lt x _ hne
  rwa [hlen] at this

lemma kmeansRun_inertia_nonneg (pts : List (List ℝ)) (k : Nat)
    (hk1 : 1 ≤ k) (hk : k ≤ pts.length) : 0 ≤ (kmeansRun pts k).inertia := by
  have hne := lloyd_take_ne_nil pts k hk1 hk
  show (0 : ℝ) ≤ (pts.map
    (fun x => listMin ((lloyd pts 300 (pts.take k)).map (sqDist x)))).sum
  apply List.sum_nonneg
  intro y hy
  obtain ⟨x, _, rfl⟩ := List.mem_map.mp hy
  exact listMin_dists_nonneg x _ hne

lemma kmeansRun_inertia_eq (pts : List (List ℝ)) (k : Nat)
    (hk1 : 1 ≤ k) (hk : k ≤ pts.length) :
    (kmeansRun pts k).inertia = ((pts.zip (kmeansRun pts k).labels).map
      (fun pl => sqDist pl.1 ((kmeansRun pts k).centers.getD pl.2 []))).sum := by
  have hne := lloyd_take_ne_nil pts k hk1 hk
  have hzip : pts.zip (pts.map (fun x => labelOf x (lloyd pts 300 (pts.take k))))
      = pts.map (fun x => (x, labelOf x (lloyd pts 300 (pts.take k)))) := by
    have := List.zip_map' id (fun x => labelOf x (lloyd pts 300 (pts.take k))) pts
    simpa using this
  show (pts.map (fun x => listMin ((lloyd pts 300 (pts.take k)).map (sqDist x)))).sum = _
  rw [show (kmeansRun pts k).labels
      = pts.map (fun x => labelOf x (lloyd pts 300 (pts.take k))) from rfl]
  rw [hzip, List.map_map]
  apply congrArg List.sum
  apply List.map_congr_left
  intro x _
  simp only [Function.comp]
  exact (labelOf_getD x _ hne).symm

lemma cols_ne_nil_of_numeric (t : Table) (h : numericColumns t ≠ []) :
    t.cols ≠ [] := by
  intro hnil
  apply h
  unfold numericColumns
  rw [hnil]
  rfl

lemma setCluster_ncols (t : Table) (labels : List Nat)
    (h : (colNames t).contains "cluster" = false) :
    ncols (setCluster t labels) = ncols t + 1 := by
  unfold setCluster
  rw [if_neg (by rw [h]; simp)]
  simp [ncols]

lemma setCluster_nrows (t : Table) (labels : List Nat)
    (h : (colNames t).contains "cluster" = false) (hne : t.cols ≠ []) :
    nrows (setCluster t labels) = nrows t := by
  unfold setCluster
  rw [if_neg (by rw [h]; simp)]
  unfold nrows
  cases hc : t.cols with
  | nil => exact absurd hc hne
  | cons c cs => rfl

lemma setCluster_colNames (t : Table) (labels : List Nat)
    (h : (colNames t).contains "cluster" = false) :
    colNames (setCluster t labels) = colNames t ++ ["cluster"] := by
  unfold setCluster
  rw [if_neg (by rw [h]; simp)]
  unfold colNames
  simp

lemma summary_missing_keys (t : Table) :
    (get_data_summary t).missing_values.map Prod.fst = colNames t := by
  unfold get_data_summary colNames
  rw [List.map_map]
  rfl

lemma generate_narrative_ok (oracle : Nat → Except String String) :
    ∃ s, generate_narrative oracle = (.ok s, 1, []) := by
  unfold generate_narrative tenacityRetry
  unfold retryGo
  cases h : oracle 0 with
  | ok c =>
    refine ⟨c.trim, ?_⟩
    simp [generate_narrative_body, h]
  | error e =>
    refine ⟨fallbackNarrative, ?_⟩
    simp [generate_narrative_body, h]

/-! ### Claim theorems: narrator, ingestion, reporter -/

/-- C1 (code-bug evidence): when the chat-completion call raises on every
attempt, `generate_narrative` returns the fallback sentence after exactly
ONE attempt and with NO backoff sleeps: the `except` inside the function
body swallows every exception, so the tenacity decorator — configured with
`stop_after_attempt(3)` and `wait_exponential` — never observes a failure
and never retries. -/
theorem narrator_single_attempt_on_persistent_failure :
    generate_narrative (fun _ => .error "HTTP 500") = (.ok fallbackNarrative, 1, []) := by
  rfl

/-- C3: on a table with zero numeric columns, `run_analysis` fails in the
clustering step with the error the spec's taxonomy names `ClusteringError`
(in the code, the `ValueError` sklearn raises on a 0-feature matrix), and
the narrative-generation service is never called: 0 attempts are made. -/
theorem clustering_error_before_network (t : Table) (path : String)
    (oracle : Nat → Except String String) (mkdirFails writeFails : Bool)
    (h : numericColumns t = []) :
    run_analysis t path oracle mkdirFails writeFails = (.error .noNumericFeatures, 0) := by
  have hpc : perform_clustering t 3 = .error .noNumericFeatures := by
    unfold perform_clustering
    rw [if_pos h]
  unfold run_analysis
  rw [hpc]

/-- Witness for C3: a table with one categorical column only. -/
theorem clustering_error_before_network_witness :
    numericColumns c3Table = [] ∧
      run_analysis c3Table "d.csv" (fun _ => .error "boom") false false
        = (.error .noNumericFeatures, 0) :=
  ⟨by rfl, clustering_error_before_network c3Table "d.csv" _ false false (by rfl)⟩

/-- C4 counterexample: a header-only file parses to zero data rows, yet
`load_dataset` succeeds (pandas happily returns an empty frame) instead of
raising the ingestion error the claim requires for the zero-row case. -/
theorem c4_counterexample :
    (load_dataset true [["a", "b"]]).map (fun r => r.rows.length) = .ok 0 ∧
      isErr (load_dataset true [["a", "b"]]) = false :=
  ⟨by rfl, by rfl⟩

/-- C4 (amended): ingestion raises exactly when the file cannot be opened
or the file has no lines at all (pandas `EmptyDataError`); a parse that
merely yields zero data rows succeeds.  An ingestion error is fatal: the
pipeline initialization propagates it. -/
theorem load_dataset_error_iff (openable : Bool) (lines : List (List String)) :
    isErr (load_dataset openable lines) = (!openable || lines.isEmpty) ∧
      (isErr (load_dataset openable lines) = true →
        isErr (initPipeline openable lines) = true) := by
  constructor
  · unfold load_dataset
    cases openable
    · rfl
    · cases lines <;> rfl
  · intro h
    unfold initPipeline
    cases openable
    · rfl
    · cases lines
      · rfl
      · unfold load_dataset at h
        simp [isErr] at h

/-- Witness for C4: an unopenable file is an ingestion error, and the
pipeline initialization fails with it. -/
theorem load_dataset_error_iff_witness :
    isErr (load_dataset false [["a"]]) = (!false || List.isEmpty [["a"]]) ∧
      isErr (initPipeline false [["a"]]) = true :=
  ⟨(load_dataset_error_iff false [["a"]]).1,
    (load_dataset_error_iff false [["a"]]).2 (by rfl)⟩

/-- C8 counterexample: for dataset path `a.b.csv`, `save_results` creates
and writes into the directory `a` — the prefix before the FIRST dot of the
whole path — while the input file's base name with its extension stripped
is `a.b`. -/
theorem c8_counterexample :
    (save_results "a.b.csv" exSummary exCluster "n" false false).map (fun o => o.mkdirDone)
        = .ok ["a"] ∧
      baseNameStripExt "a.b.csv" = "a.b" ∧
      folderName "a.b.csv" ≠ baseNameStripExt "a.b.csv" :=
  ⟨by rfl, by rfl, by decide⟩

/-- C8 (amended): `save_results` creates (if absent) the directory named
by the prefix of the dataset path before its first dot, and writes the
report document to `README.md` inside that directory; this prefix agrees
with the spec's "base name with extension stripped" only for slash-free
paths with a single dot, such as `data.csv`. -/
theorem save_results_location (path : String) (s : Summary) (c : ClusterResult)
    (narrative : String) (writeFails : Bool) :
    (save_results path s c narrative false writeFails).map (fun o => o.mkdirDone)
        = .ok [folderName path] ∧
      (save_results path s c narrative false false).map (fun o => o.written.map Prod.fst)
        = .ok [folderName path ++ "/README.md"] ∧
      folderName "data.csv" = baseNameStripExt "data.csv" := by
  refine ⟨?_, by rfl, by rfl⟩
  unfold save_results
  cases writeFails <;> rfl

/-- C9 counterexample: when the directory-creation call fails, the failure
propagates out of `save_results` — `os.makedirs` runs before the `try`
block — contradicting the claim that every report-writing failure is
caught inside `save_results`. -/
theorem c9_counterexample :
    isErr (save_results "data.csv" exSummary exCluster "n" true false) = true := by
  rfl

/-! ### Claim theorems: clustering and orchestration -/

/-- C6 counterexample: with a single-row table and the requested cluster
count `k = 2` (which satisfies the claim's `k ≥ 1`), the code raises
sklearn's `n_samples < n_clusters` `ValueError` instead of producing two
centers, so the claim does not hold for every `k ≥ 1`. -/
theorem c6_counterexample :
    perform_clustering c6OneRow 2 = .error .tooFewSamples := by rfl

/-- C6 (amended): for every clean table with at least one numeric column
and every requested `k` with `1 ≤ k ≤` row count, the Clusterer succeeds
and produces exactly `k` cluster centers, assigns each of the `nrows t`
rows a label in `[0, k)`, and reports an inertia that is non-negative and
equal to the sum over all rows of the squared Euclidean distance between
the row's standardized feature vector and its assigned center.  (When `k`
exceeds the row count the library call raises instead.) -/
theorem perform_clustering_props (t : Table) (k : Nat)
    (h1 : numericColumns t ≠ []) (h2 : allNumericValues t = true)
    (h3 : 1 ≤ k) (h4 : k ≤ nrows t) :
    ∃ res t2, perform_clustering t k = .ok (res, t2) ∧
      res.centers.length = k ∧
      res.labels.length = nrows t ∧
      (∀ l ∈ res.labels, l < k) ∧
      0 ≤ res.inertia ∧
      res.inertia = (((pointsOf t).zip res.labels).map
        (fun pl => sqDist pl.1 (res.centers.getD pl.2 []))).sum := by
  have hpts : (pointsOf t).length = nrows t := pointsOf_length t
  have hk : k ≤ (pointsOf t).length := by omega
  refine ⟨_, _, perform_clustering_ok t k h1 h2 (by omega) (by omega),
    kmeansRun_centers_length _ k hk, ?_, kmeansRun_labels_lt _ k h3 hk,
    kmeansRun_inertia_nonneg _ k h3 hk, kmeansRun_inertia_eq _ k h3 hk⟩
  rw [kmeansRun_labels_length, hpts]

/-- Witness for C6: the three-row table `c6Table` with `k = 2`. -/
theorem perform_clustering_props_witness :
    (numericColumns c6Table ≠ [] ∧ allNumericValues c6Table = true ∧
      1 ≤ 2 ∧ 2 ≤ nrows c6Table) ∧
    (∃ res t2, perform_clustering c6Table 2 = .ok (res, t2) ∧
      res.centers.length = 2 ∧
      res.labels.length = nrows c6Table ∧
      (∀ l ∈ res.labels, l < 2) ∧
      0 ≤ res.inertia ∧
      res.inertia = (((pointsOf c6Table).zip res.labels).map
        (fun pl => sqDist pl.1 (res.centers.getD pl.2 []))).sum) :=
  ⟨⟨by decide, by rfl, by decide, by decide⟩,
    perform_clustering_props c6Table 2 (by decide) (by rfl) (by decide) (by decide)⟩

/-- C5 counterexample: clustering is a pipeline stage that runs after
ingestion, yet it changes the column count: the concrete clean table has
1 column before `perform_clustering` and the table it leaves behind has 2
(the appended `cluster` column). -/
theorem c5_counterexample :
    (perform_clustering c6Table 3).map (fun p => ncols p.2) = .ok 2 ∧
      ncols c6Table = 1 := by
  constructor
  · rw [perform_clustering_ok c6Table 3 (by decide) (by rfl) (by decide) (by decide)]
    show Except.ok (ncols (setCluster c6Table _)) = Except.ok 2
    rw [setCluster_ncols _ _ (by rfl)]
    rfl
  · rfl

/-- C5 (amended): preprocessing preserves the table shape exactly — same
column names, same row count, same column count; clustering preserves the
row count but appends one `cluster` column when none exists, so the column
count grows by exactly one at that stage. -/
theorem shape_invariants (t t' : Table) (h : preprocess_data t = .ok t') :
    (colNames t' = colNames t ∧ nrows t' = nrows t ∧ ncols t' = ncols t) ∧
    (∀ k, 1 ≤ k → k ≤ nrows t' → allNumericValues t' = true →
      numericColumns t' ≠ [] → (colNames t').contains "cluster" = false →
      ∃ res t2, perform_clustering t' k = .ok (res, t2) ∧
        nrows t2 = nrows t' ∧ ncols t2 = ncols t' + 1) := by
  obtain ⟨ht', _⟩ := preprocess_ok_shape t t' h
  constructor
  · subst ht'
    refine ⟨?_, ?_, ?_⟩
    · unfold colNames
      rw [List.map_map]
      apply List.map_congr_left
      intro c _
      simp [Function.comp, prepCol_name]
    · unfold nrows
      cases t.cols with
      | nil => rfl
      | cons c cs => exact prepCol_values_length c
    · unfold ncols
      rw [List.length_map]
  · intro k hk1 hk2 hnum hnn hcl
    refine ⟨_, _, perform_clustering_ok t' k hnn hnum (by omega) (by omega), ?_, ?_⟩
    · exact setCluster_nrows t' _ hcl (cols_ne_nil_of_numeric t' hnn)
    · exact setCluster_ncols t' _ hcl

/-- Witness for C5: `c7Raw` preprocesses to `c7Clean` with identical
shape, and clustering `c7Clean` with `k = 2` adds exactly the `cluster`
column. -/
theorem shape_invariants_witness :
    preprocess_data c7Raw = .ok c7Clean ∧
      (colNames c7Clean = colNames c7Raw ∧ nrows c7Clean = nrows c7Raw ∧
        ncols c7Clean = ncols c7Raw) ∧
      (1 ≤ 2 ∧ 2 ≤ nrows c7Clean ∧ allNumericValues c7Clean = true ∧
        numericColumns c7Clean ≠ [] ∧ (colNames c7Clean).contains "cluster" = false) ∧
      (∃ res t2, perform_clustering c7Clean 2 = .ok (res, t2) ∧
        nrows t2 = nrows c7Clean ∧ ncols t2 = ncols c7Clean + 1) :=
  ⟨by decide, (shape_invariants c7Raw c7Clean (by decide)).1,
    ⟨by decide, by decide, by rfl, by decide, by rfl⟩,
    (shape_invariants c7Raw c7Clean (by decide)).2 2
      (by decide) (by decide) (by rfl) (by decide) (by rfl)⟩

/-- C10: `run_analysis` computes the summary from the table BEFORE
clustering.  The returned summary equals `get_data_summary` of the input
table, its key set is exactly the pre-clustering column names — so it
never includes the `cluster` column that `perform_clustering` appends —
while the final table does carry `cluster`; clustering left the computed
summary unchanged. -/
theorem summary_before_clustering (t : Table) (path : String)
    (oracle : Nat → Except String String) (writeFails : Bool)
    (h1 : numericColumns t ≠ []) (h2 : allNumericValues t = true)
    (h3 : 3 ≤ nrows t) (h4 : (colNames t).contains "cluster" = false) :
    ∃ r n, run_analysis t path oracle false writeFails = (.ok r, n) ∧
      r.summary = get_data_summary t ∧
      r.summary.missing_values.map Prod.fst = colNames t ∧
      ¬ "cluster" ∈ r.summary.missing_values.map Prod.fst ∧
      "cluster" ∈ colNames r.finalTable := by
  have hok := perform_clustering_ok t 3 h1 h2 (by omega) (by omega)
  obtain ⟨s, hn⟩ := generate_narrative_ok oracle
  have hmem : "cluster" ∈ colNames
      (setCluster t (kmeansRun (pointsOf t) 3).labels) := by
    rw [setCluster_colNames t _ h4]
    simp
  have hnotk : ¬ "cluster" ∈ (get_data_summary t).missing_values.map Prod.fst := by
    rw [summary_missing_keys]
    intro hmem2
    have h5 : (colNames t).contains "cluster" = true :=
      List.elem_eq_true_of_mem hmem2
    rw [h4] at h5
    cases h5
  unfold run_analysis
  rw [hok, hn]
  cases writeFails with
  | false =>
    exact ⟨_, 1, rfl, rfl, summary_missing_keys t, hnotk, hmem⟩
  | true =>
    exact ⟨_, 1, rfl, rfl, summary_missing_keys t, hnotk, hmem⟩

/-- Witness for C10: the three-row numeric table `c6Table`. -/
theorem summary_before_clustering_witness :
    (numericColumns c6Table ≠ [] ∧ allNumericValues c6Table = true ∧
      3 ≤ nrows c6Table ∧ (colNames c6Table).contains "cluster" = false) ∧
    (∃ r n, run_analysis c6Table "d.csv" (fun _ => .ok "story") false false
        = (.ok r, n) ∧
      r.summary = get_data_summary c6Table ∧
      r.summary.missing_values.map Prod.fst = colNames c6Table ∧
      ¬ "cluster" ∈ r.summary.missing_values.map Prod.fst ∧
      "cluster" ∈ colNames r.finalTable) :=
  ⟨⟨by decide, by rfl, by decide, by rfl⟩,
    summary_before_clustering c6Table "d.csv" (fun _ => .ok "story") false
      (by decide) (by rfl) (by decide) (by rfl)⟩

/-- C9 (amended): failures raised while opening or writing `README.md`
inside the `try` block are caught and only logged (`save_results` returns
normally, so the process does not crash); but a failure of the preceding
directory-creation call escapes `save_results`. -/
theorem save_results_write_failures_caught (path : String) (s : Summary)
    (c : ClusterResult) (narrative : String) (writeFails : Bool) :
    isErr (save_results path s c narrative false writeFails) = false ∧
      (save_results path s c narrative false true).map (fun o => o.loggedError)
        = .ok true := by
  constructor
  · unfold save_results
    cases writeFails <;> rfl
  · rfl

end Autolysis

